import Mathlib

/-
Verification development for the ebiten-exercises demos.

The repository holds six small demo programs over the ebiten 2D engine:
basic-input (draggable sprites), polygon-making (fan-triangulated regular
polygons), shapes-gg (gg-rasterized shapes, src/unnamed/part_000),
connect-lines (blocks joined by right-clicks), starfield (2-layer parallax)
and turns (a turn counter, src/turns and src/unnamed/part_001).

Embedding conventions, used uniformly below:
- An engine image is modelled by its pixel dimensions and an alpha map;
  ebiten's Image.At returns the zero color (alpha 0) outside the image
  rectangle, which Img.atAlpha reproduces.
- Per-frame input polling is modelled as a record of the polled values for
  one frame: IsKeyPressed results are plain booleans, and the edge-triggered
  inpututil.IsKeyJustPressed / IsMouseButtonJustPressed results are booleans
  whose documented semantics (pressed this frame and not pressed on the
  previous frame) is made explicit where a claim needs it (Turns.justPressed).
- Go integers are modelled as Int (or Nat for indices and lengths); the
  uint16 conversions of genPolygon are modelled by reduction mod 65536, and
  the run-time panic of % on a zero uint16 divisor by an Option result.
- In-place mutation of one slice element, as in g.s[i].MoveBy(...), is
  modelled by modifyAt, which rebuilds the list with the element at index i
  transformed. modifyAt leaves the list unchanged when the index is out of
  range (where the Go program would panic); every theorem below that depends
  on that slot keeps the index in range.
-/

/-- Shared screen width of all demos (the turns demo's logical layout size is
irrelevant to its update logic). -/
def screenWidth : Int := 640

/-- Shared screen height of all demos. -/
def screenHeight : Int := 480

/-- An engine image: pixel dimensions plus the alpha channel of its bitmap. -/
structure Img where
  w : Int
  h : Int
  alpha : Int → Int → Nat

/-- Alpha value read by ebiten's Image.At: the bitmap's alpha inside the image
rectangle, and 0 (the zero color.RGBA) outside it. -/
def Img.atAlpha (m : Img) (x y : Int) : Nat :=
  if 0 ≤ x ∧ x < m.w ∧ 0 ≤ y ∧ y < m.h then m.alpha x y else 0

/-- The clean-exit sentinel error ErrCleanExit shared by the demos. -/
inductive Err where
  | CleanExit
deriving DecidableEq

/-- One frame of polled input: IsKeyPressed booleans for the keys the demos
read, the edge-triggered IsKeyJustPressed / IsMouseButtonJustPressed results,
and the cursor position. -/
structure Input where
  keyUp : Bool
  keyDown : Bool
  keyLeft : Bool
  keyRight : Bool
  keyW : Bool
  keyA : Bool
  keyS : Bool
  keyD : Bool
  keyQ : Bool
  keyE : Bool
  spaceJust : Bool
  fJust : Bool
  esc : Bool
  leftJust : Bool
  rightJust : Bool
  cx : Int
  cy : Int

/-- The idle frame: nothing pressed, cursor at the origin. -/
def inp0 : Input :=
  ⟨false, false, false, false, false, false, false, false, false, false,
   false, false, false, false, false, 0, 0⟩

/-- Rebuild a list with the element at index i transformed by f, the embedding
of the in-place mutation g.s[i].MoveBy(...). Out-of-range indices leave the
list unchanged. -/
def modifyAt {α : Type} (i : Nat) (f : α → α) : List α → List α
  | [] => []
  | x :: xs =>
    match i with
    | 0 => f x :: xs
    | i + 1 => x :: modifyAt i f xs

/-- The descending hit-scan shared by the demos' mouse handlers
(for i := len(s)-1; i >= 0; i--): scan indices k-1, k-2, ..., 0 of l and
return the first index whose element satisfies p, hence the largest hit. -/
def findTopFrom {α : Type} (l : List α) (p : α → Bool) : Nat → Option Nat
  | 0 => none
  | k + 1 => if Option.any p l[k]? then some k else findTopFrom l p k

/-- Topmost (largest) index of l whose element satisfies p, if any. -/
def findTopHit {α : Type} (l : List α) (p : α → Bool) : Option Nat :=
  findTopFrom l p l.length

/-- Left-click selection: the loop assigns the topmost hit to the active index
and breaks; when nothing is hit the index keeps its current value. -/
def selectTop {α : Type} (l : List α) (p : α → Bool) (cur : Nat) : Nat :=
  (findTopHit l p).getD cur

/-- Clamping as the spec words it: an out-of-bounds value is replaced by the
nearest in-bounds one, for the inclusive range lo..hi. -/
def clampI (lo hi v : Int) : Int := max lo (min hi v)

namespace BasicInput

/-- translateFactor of src/basic-input/main.go. -/
def translateFactor : Int := 10

/-- Sprite of src/basic-input/main.go: an image at a screen position. -/
structure Sprite where
  id : String
  img : Img
  x : Int
  y : Int

/-- Sprite.In: the alpha at the cursor translated into image coordinates is
non-zero. The sprite is drawn with a plain translation by (x, y), so this is
exactly the drawn pixel under the cursor. -/
def Sprite.In (s : Sprite) (x y : Int) : Bool :=
  s.img.atAlpha (x - s.x) (y - s.y) > 0

/-- Sprite.MoveBy: translate by (dx, dy), then clamp each coordinate to keep
the whole image on the 640x480 screen, in the source's if order (lower bound
first, upper bound second). -/
def Sprite.MoveBy (s : Sprite) (dx dy : Int) : Sprite :=
  let x := s.x + dx
  let y := s.y + dy
  let x := if x < 0 then 0 else x
  let x := if x > screenWidth - s.img.w then screenWidth - s.img.w else x
  let y := if y < 0 then 0 else y
  let y := if y > screenHeight - s.img.h then screenHeight - s.img.h else y
  { s with x := x, y := y }

/-- The four arrow-key branches of Game.Update, acting on the active sprite;
each pressed direction applies one MoveBy, in the source's order. -/
def movePhase (inp : Input) (s : Sprite) : Sprite :=
  let s := if inp.keyUp then s.MoveBy 0 (-translateFactor) else s
  let s := if inp.keyDown then s.MoveBy 0 translateFactor else s
  let s := if inp.keyLeft then s.MoveBy (-translateFactor) 0 else s
  if inp.keyRight then s.MoveBy translateFactor 0 else s

/-- Game of src/basic-input/main.go. -/
structure Game where
  s : List Sprite
  activeSprite : Nat

/-- Game.Update of basic-input: arrow keys move the active sprite (clamped), a
left click selects the topmost sprite under the cursor, and Escape makes the
call return the ErrCleanExit sentinel; otherwise it returns nil (none). -/
def update (inp : Input) (g : Game) : Game × Option Err :=
  let s1 := modifyAt g.activeSprite (movePhase inp) g.s
  let a1 :=
    if inp.leftJust then
      selectTop s1 (fun sp => Sprite.In sp inp.cx inp.cy) g.activeSprite
    else g.activeSprite
  (⟨s1, a1⟩, if inp.esc then some Err.CleanExit else none)

end BasicInput

namespace Turns

/-- Game.Update of the turns demo (src/turns/main.go and
src/unnamed/part_001): increment the counter on an edge-triggered space
press; the function always returns nil and never reads the Escape key. -/
def update (inp : Input) (turn : Int) : Int × Option Err :=
  (if inp.spaceJust then turn + 1 else turn, none)

/-- Edge-trigger semantics of the host engine's inpututil.IsKeyJustPressed:
the key is down this frame and was not down on the previous frame. -/
def justPressed (prev cur : Bool) : Bool := cur && !prev

/-- A frame whose only polled value is the space edge-trigger result. -/
def spaceIn (b : Bool) : Input := { inp0 with spaceJust := b }

/-- Run the turns demo over a list of per-frame space-key states, feeding each
frame's edge-trigger result to update; prev is the key state before the first
listed frame. -/
def run (prev : Bool) (turn : Int) : List Bool → Int
  | [] => turn
  | d :: ds => run d (update (spaceIn (justPressed prev d)) turn).1 ds

/-- Claim-side count of released-to-pressed transitions in a frame sequence. -/
def risingEdges (prev : Bool) : List Bool → Nat
  | [] => 0
  | d :: ds => (if d && !prev then 1 else 0) + risingEdges d ds

end Turns

namespace PolygonMaking

/-- translateFactor of src/polygon-making/main.go. -/
def translateFactor : Int := 10

/-- rotateFactor 0.05 of src/polygon-making/main.go, as an exact rational. -/
def rotateFactor : ℚ := 1 / 20

/-- An ebiten.Vertex of genPolygon: destination point, source point and vertex
color, with the float fields modelled as reals. -/
structure VertexR where
  dstX : ℝ
  dstY : ℝ
  srcX : ℝ
  srcY : ℝ
  colorR : ℝ
  colorG : ℝ
  colorB : ℝ
  colorA : ℝ

/-- Vertex i of genPolygon: the point at angle 2*pi*(i/num) on the circle of
radius radius centered at (radius, radius), with white color. -/
noncomputable def polyVertex (radius : Int) (num i : Nat) : VertexR :=
  ⟨(radius : ℝ) * Real.cos (2 * Real.pi * ((i : ℝ) / (num : ℝ))) + (radius : ℝ),
   (radius : ℝ) * Real.sin (2 * Real.pi * ((i : ℝ) / (num : ℝ))) + (radius : ℝ),
   0, 0, 1, 1, 1, 1⟩

/-- Vertex slice of genPolygon: make([]Vertex, num+1), the first num entries
placed around the circle and the last at the center (radius, radius). -/
noncomputable def genPolygonVs (radius : Int) (num : Nat) : List VertexR :=
  (List.range num).map (polyVertex radius num) ++
    [⟨(radius : ℝ), (radius : ℝ), 0, 0, 1, 1, 1, 1⟩]

/-- Go's uint16 conversion: reduction mod 65536. -/
def u16 (n : Nat) : Nat := n % 65536

/-- Index slice of genPolygon: per source iteration i the three fan indices
uint16(i), uint16(i+1) % uint16(num), uint16(num). -/
def genPolygonIs (num : Nat) : List Nat :=
  (List.range num).flatMap (fun i => [u16 i, u16 (i + 1) % u16 num, u16 num])

/-- genPolygon of src/polygon-making/main.go (the basic-input variant only adds
a color argument to the same construction). When num is a positive multiple of
65536 the loop divides by uint16(num) = 0, a Go run-time panic, modelled as
none; otherwise the vertex and index slices are returned. -/
noncomputable def genPolygon (radius : Int) (num : Nat) :
    Option (List VertexR × List Nat) :=
  if 0 < num ∧ u16 num = 0 then none
  else some (genPolygonVs radius num, genPolygonIs num)

/-- Polygon of src/polygon-making/main.go. The precomputed bitmap img is the
engine rasterization of the fan; its pixel content is abstract here. -/
structure Polygon where
  id : String
  x : Int
  y : Int
  radius : Int
  theta : ℚ
  img : Img

/-- Polygon.In: alpha test at the cursor translated by (radius - x,
radius - y), matching the centred, unrotated draw of the 2*radius square
image. -/
def Polygon.In (p : Polygon) (x y : Int) : Bool :=
  p.img.atAlpha (x - p.x + p.radius) (y - p.y + p.radius) > 0

/-- Polygon.MoveBy: translate, then clamp the center into
radius..screen-radius on each axis, lower bound first. -/
def Polygon.MoveBy (p : Polygon) (dx dy : Int) : Polygon :=
  let x := p.x + dx
  let y := p.y + dy
  let x := if x < 0 + p.radius then 0 + p.radius else x
  let x := if x > screenWidth - p.radius then screenWidth - p.radius else x
  let y := if y < 0 + p.radius then 0 + p.radius else y
  let y := if y > screenHeight - p.radius then screenHeight - p.radius else y
  { p with x := x, y := y }

/-- The movement and rotation branches of polygon-making's Game.Update, acting
on the active polygon: four arrow/WASD moves, then Q/E rotation. -/
def movePhase (inp : Input) (p : Polygon) : Polygon :=
  let p := if inp.keyUp || inp.keyW then p.MoveBy 0 (-translateFactor) else p
  let p := if inp.keyDown || inp.keyS then p.MoveBy 0 translateFactor else p
  let p := if inp.keyLeft || inp.keyA then p.MoveBy (-translateFactor) 0 else p
  let p := if inp.keyRight || inp.keyD then p.MoveBy translateFactor 0 else p
  let p := if inp.keyQ then { p with theta := p.theta - rotateFactor } else p
  if inp.keyE then { p with theta := p.theta + rotateFactor } else p

/-- Game of src/polygon-making/main.go. -/
structure Game where
  fullscreen : Bool
  p : List Polygon
  activePolygon : Nat

/-- Game.Update of polygon-making, in source order: move/rotate the active
polygon, cycle the active index on space, toggle fullscreen on F, select the
topmost polygon under a left click, and return the sentinel on Escape. -/
def update (inp : Input) (g : Game) : Game × Option Err :=
  let p1 := modifyAt g.activePolygon (movePhase inp) g.p
  let a1 :=
    if inp.spaceJust then (g.activePolygon + 1) % g.p.length
    else g.activePolygon
  let fs := if inp.fJust then !g.fullscreen else g.fullscreen
  let a2 :=
    if inp.leftJust then
      selectTop p1 (fun q => Polygon.In q inp.cx inp.cy) a1
    else a1
  (⟨fs, p1, a2⟩, if inp.esc then some Err.CleanExit else none)

end PolygonMaking

namespace ShapesGg

/-- translateFactor of src/unnamed/part_000 (the shapes-gg demo). -/
def translateFactor : Int := 10

/-- rotateFactor 0.05 of the shapes-gg demo, as an exact rational. -/
def rotateFactor : ℚ := 1 / 20

/-- Shape of the shapes-gg demo: a gg-rasterized image with position and
rotation. -/
structure Shape where
  id : String
  x : Int
  y : Int
  theta : ℚ
  img : Img

/-- Shape.In of the shapes-gg demo: alpha test at the cursor translated by the
full image size (w, h), per source line 84. -/
def Shape.In (s : Shape) (x y : Int) : Bool :=
  s.img.atAlpha (x - s.x + s.img.w) (y - s.y + s.img.h) > 0

/-- Pixel alpha of a Shape as it is drawn by Shape.Draw when theta = 0: the
GeoM is translate(-w/2, -h/2) then translate(x, y), so screen pixel (px, py)
shows image pixel (px - x + w/2, py - y + h/2). -/
def Shape.drawnAlpha (s : Shape) (px py : Int) : Nat :=
  s.img.atAlpha (px - s.x + s.img.w / 2) (py - s.y + s.img.h / 2)

/-- Shape.MoveBy: translate, then clamp each coordinate into w..screenWidth-w
and h..screenHeight-h, lower bound first. -/
def Shape.MoveBy (s : Shape) (dx dy : Int) : Shape :=
  let x := s.x + dx
  let y := s.y + dy
  let x := if x < 0 + s.img.w then 0 + s.img.w else x
  let x := if x > screenWidth - s.img.w then screenWidth - s.img.w else x
  let y := if y < 0 + s.img.h then 0 + s.img.h else y
  let y := if y > screenHeight - s.img.h then screenHeight - s.img.h else y
  { s with x := x, y := y }

/-- The movement and rotation branches of the shapes-gg Game.Update, acting on
the active shape. -/
def movePhase (inp : Input) (s : Shape) : Shape :=
  let s := if inp.keyUp || inp.keyW then s.MoveBy 0 (-translateFactor) else s
  let s := if inp.keyDown || inp.keyS then s.MoveBy 0 translateFactor else s
  let s := if inp.keyLeft || inp.keyA then s.MoveBy (-translateFactor) 0 else s
  let s := if inp.keyRight || inp.keyD then s.MoveBy translateFactor 0 else s
  let s := if inp.keyQ then { s with theta := s.theta - rotateFactor } else s
  if inp.keyE then { s with theta := s.theta + rotateFactor } else s

/-- Game of the shapes-gg demo. -/
structure Game where
  fullscreen : Bool
  s : List Shape
  activeShape : Nat

/-- Game.Update of shapes-gg, in source order: move/rotate the active shape,
cycle the active index on space, toggle fullscreen on F, select the topmost
shape under a left click, and return the sentinel on Escape. -/
def update (inp : Input) (g : Game) : Game × Option Err :=
  let s1 := modifyAt g.activeShape (movePhase inp) g.s
  let a1 :=
    if inp.spaceJust then (g.activeShape + 1) % g.s.length
    else g.activeShape
  let fs := if inp.fJust then !g.fullscreen else g.fullscreen
  let a2 :=
    if inp.leftJust then
      selectTop s1 (fun sh => Shape.In sh inp.cx inp.cy) a1
    else a1
  (⟨fs, s1, a2⟩, if inp.esc then some Err.CleanExit else none)

end ShapesGg

namespace ConnectLines

/-- translate of src/connect-lines/main.go. -/
def translate : Int := 1

/-- Block of src/connect-lines/main.go; the color and precomputed image are
draw-only and carry no update logic, so they are not modelled. -/
structure Block where
  id : String
  x : Int
  y : Int
  size : Int

/-- Block.In: the inclusive rectangle test of the source. -/
def Block.In (b : Block) (x y : Int) : Bool :=
  decide (b.x ≤ x ∧ x ≤ b.x + b.size ∧ b.y ≤ y ∧ y ≤ b.y + b.size)

/-- Block.Move: translate, then clamp each coordinate, upper bound first and
lower bound second, per the source's if order. -/
def Block.Move (b : Block) (dx dy : Int) : Block :=
  let x := b.x + dx
  let y := b.y + dy
  let x := if x + b.size > screenWidth then screenWidth - b.size else x
  let x := if x < 0 then 0 else x
  let y := if y + b.size > screenHeight then screenHeight - b.size else y
  let y := if y < 0 then 0 else y
  { b with x := x, y := y }

/-- The four movement branches of connect-lines' Game.Update, acting on the
selected block. -/
def movePhase (inp : Input) (b : Block) : Block :=
  let b := if inp.keyUp || inp.keyW then b.Move 0 (-translate) else b
  let b := if inp.keyDown || inp.keyS then b.Move 0 translate else b
  let b := if inp.keyLeft || inp.keyA then b.Move (-translate) 0 else b
  if inp.keyRight || inp.keyD then b.Move translate 0 else b

/-- A connection record of src/connect-lines/main.go: two block indices. -/
structure connected where
  blk1 : Nat
  blk2 : Nat

/-- Game of src/connect-lines/main.go. -/
structure Game where
  fullscreen : Bool
  blocks : List Block
  connections : List connected
  selected : Nat

/-- Game.Update of connect-lines, in source order: move the selected block,
toggle fullscreen on F, select the topmost block under a left click, and on a
right click over a block other than the currently selected one append a
connection from the selected block to it; Escape returns the sentinel. -/
def update (inp : Input) (g : Game) : Game × Option Err :=
  let b1 := modifyAt g.selected (movePhase inp) g.blocks
  let fs := if inp.fJust then !g.fullscreen else g.fullscreen
  let sel1 :=
    if inp.leftJust then
      selectTop b1 (fun b => Block.In b inp.cx inp.cy) g.selected
    else g.selected
  let conns :=
    if inp.rightJust then
      match findTopHit b1 (fun b => Block.In b inp.cx inp.cy) with
      | some i => if i ≠ sel1 then g.connections ++ [⟨sel1, i⟩] else g.connections
      | none => g.connections
    else g.connections
  (⟨fs, b1, conns, sel1⟩, if inp.esc then some Err.CleanExit else none)

/-- Well-formedness of the connection list, as claimed: every entry joins two
distinct block indices, both in range. -/
def ConnOK (g : Game) : Prop :=
  ∀ c ∈ g.connections,
    c.blk1 ≠ c.blk2 ∧ c.blk1 < g.blocks.length ∧ c.blk2 < g.blocks.length

end ConnectLines

namespace Starfield

/-- Per-keypress translation of the near star layer. -/
def translateNear : Int := 3

/-- Per-keypress translation of the far star layer. -/
def translateFar : Int := 1

/-- Star of src/starfield/main.go. -/
structure Star where
  x : Int
  y : Int
  radius : Int
  img : Img

/-- Star.MoveBy: translate, then wrap each coordinate around the screen
(circular stars): past screenWidth back to 0, below 0 back to screenWidth,
and likewise for y. -/
def Star.MoveBy (s : Star) (dx dy : Int) : Star :=
  let x := s.x + dx
  let y := s.y + dy
  let x := if x > screenWidth then 0 else x
  let x := if x < 0 then screenWidth else x
  let y := if y > screenHeight then 0 else y
  let y := if y < 0 then screenHeight else y
  { s with x := x, y := y }

/-- Game of src/starfield/main.go. -/
structure Game where
  fullscreen : Bool
  nearStars : List Star
  farStars : List Star

/-- Game.MoveView: move every near star by the near factor and every far star
by the far factor. -/
def MoveView (g : Game) (x y : Int) : Game :=
  { g with
    nearStars := g.nearStars.map (fun s => s.MoveBy (x * translateNear) (y * translateNear)),
    farStars := g.farStars.map (fun s => s.MoveBy (x * translateFar) (y * translateFar)) }

/-- Game.Update of starfield, in source order: each pressed direction scrolls
the whole view, F toggles fullscreen, Escape returns the sentinel. -/
def update (inp : Input) (g : Game) : Game × Option Err :=
  let g1 := if inp.keyUp || inp.keyW then MoveView g 0 (-1) else g
  let g2 := if inp.keyDown || inp.keyS then MoveView g1 0 1 else g1
  let g3 := if inp.keyLeft || inp.keyA then MoveView g2 (-1) 0 else g2
  let g4 := if inp.keyRight || inp.keyD then MoveView g3 1 0 else g3
  let g5 := if inp.fJust then { g4 with fullscreen := !g4.fullscreen } else g4
  (g5, if inp.esc then some Err.CleanExit else none)

end Starfield

/-- A fully non-transparent 16x16 test bitmap. -/
def imgT : Img := ⟨16, 16, fun _ _ => 255⟩

/-- A fully non-transparent 2x2 test bitmap. -/
def imgT2 : Img := ⟨2, 2, fun _ _ => 255⟩

/-- A fully non-transparent 40x40 test bitmap (a radius-20 polygon image). -/
def imgP : Img := ⟨40, 40, fun _ _ => 255⟩

/-- The two sprites of basic-input's main, with the test bitmap. -/
def sprEx : BasicInput.Sprite := ⟨"0", imgT, 0, 0⟩

def sprEx1 : BasicInput.Sprite := ⟨"1", imgT, 100, 100⟩

def gBasicEx : BasicInput.Game := ⟨[sprEx, sprEx1], 0⟩

def polEx : PolygonMaking.Polygon := ⟨"Pentagon", 50, 50, 20, 0, imgP⟩

def polEx1 : PolygonMaking.Polygon := ⟨"Circle", 100, 100, 20, 0, imgP⟩

def gPolyEx : PolygonMaking.Game := ⟨false, [polEx, polEx1], 0⟩

/-- A 2x2 fully non-transparent shape of the shapes-gg demo at (10, 10),
unrotated; drawn by Shape.Draw it covers screen pixels 9..10 on each axis. -/
def shpEx : ShapesGg.Shape := ⟨"sq", 10, 10, 0, imgT2⟩

def shpEx1 : ShapesGg.Shape := ⟨"tr", 100, 100, 0, imgT2⟩

def gShapeEx : ShapesGg.Game := ⟨false, [shpEx, shpEx1], 0⟩

def blkEx : ConnectLines.Block := ⟨"0", 5, 5, 3⟩

def blkEx1 : ConnectLines.Block := ⟨"1", 50, 50, 3⟩

def gConnEx : ConnectLines.Game := ⟨false, [blkEx, blkEx1], [], 0⟩

/-- A star one pixel left of the right screen edge. -/
def starEx : Starfield.Star := ⟨639, 100, 3, imgT⟩

def gStarEx : Starfield.Game := ⟨false, [⟨0, 0, 3, imgT⟩, ⟨100, 100, 3, imgT⟩], []⟩

def inpEsc : Input := { inp0 with esc := true }

def inpUp : Input := { inp0 with keyUp := true }

def inpClick : Input := { inp0 with leftJust := true, cx := 3, cy := 3 }

def inpRight : Input := { inp0 with rightJust := true, cx := 6, cy := 6 }

/-! Helper lemmas about the embedding's list operations. -/

theorem modifyAt_length {α : Type} (i : Nat) (f : α → α) (l : List α) :
    (modifyAt i f l).length = l.length := by
  induction l generalizing i with
  | nil => simp [modifyAt]
  | cons x xs ih =>
    cases i with
    | zero => simp [modifyAt]
    | succ i => simpa [modifyAt] using ih i

theorem modifyAt_getElem?_ne {α : Type} (i j : Nat) (f : α → α) (l : List α)
    (h : j ≠ i) : (modifyAt i f l)[j]? = l[j]? := by
  induction l generalizing i j with
  | nil => simp [modifyAt]
  | cons x xs ih =>
    cases i with
    | zero =>
      cases j with
      | zero => exact absurd rfl h
      | succ j => simp [modifyAt]
    | succ i =>
      cases j with
      | zero => simp [modifyAt]
      | succ j => simpa [modifyAt] using ih i j (by omega)

theorem findTopFrom_some_lt {α : Type} (l : List α) (p : α → Bool) :
    ∀ k i, findTopFrom l p k = some i → i < k := by
  intro k
  induction k with
  | zero => intro i h; simp [findTopFrom] at h
  | succ k ih =>
    intro i h
    rw [findTopFrom] at h
    split at h
    · cases h; omega
    · have := ih i h; omega

theorem findTopFrom_none {α : Type} (l : List α) (p : α → Bool)
    (hnone : ∀ j : Nat, Option.any p l[j]? = false) :
    ∀ k, findTopFrom l p k = none := by
  intro k
  induction k with
  | zero => rfl
  | succ k ih => rw [findTopFrom, hnone k]; simpa using ih

theorem findTopFrom_eq_top {α : Type} (l : List α) (p : α → Bool) (i : Nat)
    (hi : Option.any p l[i]? = true)
    (hj : ∀ j : Nat, i < j → Option.any p l[j]? = false) :
    ∀ k, i < k → findTopFrom l p k = some i := by
  intro k
  induction k with
  | zero => omega
  | succ k ih =>
    intro hik
    rw [findTopFrom]
    by_cases he : i = k
    · subst he; simp [hi]
    · have hlt : i < k := by omega
      rw [hj k hlt]
      simpa using ih hlt

theorem selectTop_lt {α : Type} (l : List α) (p : α → Bool) (cur : Nat)
    (hcur : cur < l.length) : selectTop l p cur < l.length := by
  unfold selectTop findTopHit
  cases h : findTopFrom l p l.length with
  | none => simpa using hcur
  | some i =>
    have := findTopFrom_some_lt l p l.length i h
    simpa using this

theorem flatMap_congr_mem {α β : Type} (l : List α) (f g : α → List β)
    (h : ∀ a ∈ l, f a = g a) : l.flatMap f = l.flatMap g := by
  induction l with
  | nil => rfl
  | cons a as ih =>
    simp only [List.flatMap_cons]
    rw [h a (by simp), ih (fun b hb => h b (by simp [hb]))]

theorem flatMap_triple_length {α : Type} (l : List α) (f g h3 : α → Nat) :
    (l.flatMap fun a => [f a, g a, h3 a]).length = 3 * l.length := by
  induction l with
  | nil => rfl
  | cons a as ih => simp [List.flatMap_cons, ih]; omega

/-! Claim C2: the turn counter is edge-triggered. -/

/-- C2: in the turns demo the counter gains exactly one on a frame where the
space key goes from released to pressed, is unchanged on a frame where space
is held or up, and over any frame sequence the counter grows by exactly the
number of released-to-pressed transitions. -/
theorem turn_counter_edge_triggered (prev d : Bool) (t : Int) (frames : List Bool) :
    (d = true → prev = false →
      (Turns.update (Turns.spaceIn (Turns.justPressed prev d)) t).1 = t + 1) ∧
    (d = true → prev = true →
      (Turns.update (Turns.spaceIn (Turns.justPressed prev d)) t).1 = t) ∧
    (d = false →
      (Turns.update (Turns.spaceIn (Turns.justPressed prev d)) t).1 = t) ∧
    (Turns.run prev t frames = t + Turns.risingEdges prev frames) := by
  refine ⟨?_, ?_, ?_, ?_⟩
  · intro hd hp; subst hd; subst hp; rfl
  · intro hd hp; subst hd; subst hp; rfl
  · intro hd; subst hd; simp [Turns.update, Turns.spaceIn, Turns.justPressed]
  · induction frames generalizing prev t with
    | nil => simp [Turns.run, Turns.risingEdges]
    | cons d ds ih =>
      rw [Turns.run, Turns.risingEdges, ih]
      cases hd : Turns.justPressed prev d
      · simp only [Turns.justPressed] at hd
        simp [Turns.update, Turns.spaceIn, Turns.justPressed, hd]
      · simp only [Turns.justPressed] at hd
        simp only [Turns.update, Turns.spaceIn, Turns.justPressed, hd, if_true]
        push_cast
        ring

/-- Witness for C2 at concrete frames: a rising edge increments, a held or
released key leaves the counter alone, and a concrete three-frame run adds
its edge count. -/
theorem turn_counter_edge_triggered_witness :
    ((Turns.update (Turns.spaceIn (Turns.justPressed false true)) 5).1 = 5 + 1) ∧
    ((Turns.update (Turns.spaceIn (Turns.justPressed true true)) 5).1 = 5) ∧
    ((Turns.update (Turns.spaceIn (Turns.justPressed true false)) 5).1 = 5) ∧
    (Turns.run false 5 [true, true, false] = 5 + Turns.risingEdges false [true, true, false]) :=
  ⟨(turn_counter_edge_triggered false true 5 []).1 rfl rfl,
   (turn_counter_edge_triggered true true 5 []).2.1 rfl rfl,
   (turn_counter_edge_triggered true false 5 []).2.2.1 rfl,
   (turn_counter_edge_triggered false false 5 [true, true, false]).2.2.2⟩

/-! Claim C3: pixel-alpha hit-testing versus the drawn region. -/

/-- C3 (code bug): in the shapes-gg demo Shape.In translates the cursor by the
full image size (w, h) while Shape.Draw centres the image, shifting by
(w/2, h/2); on a fully non-transparent 2x2 shape at (10, 10) the hit test
accepts (8, 8), which is outside the drawn region, and rejects (10, 10),
which is a drawn pixel. -/
theorem shape_hit_offset_bug :
    ShapesGg.Shape.In shpEx 8 8 = true ∧
    ShapesGg.Shape.drawnAlpha shpEx 8 8 = 0 ∧
    ShapesGg.Shape.In shpEx 10 10 = false ∧
    ShapesGg.Shape.drawnAlpha shpEx 10 10 = 255 := by
  decide

/-! Claim C4: the Escape clean-exit sentinel. -/

/-- C4 counterexample: the turns demo's Update never reads the Escape key and
returns nil even on a frame where Escape is pressed, against the claim that
every demo returns ErrCleanExit on Escape. -/
theorem turns_escape_returns_nil :
    (Turns.update inpEsc 5).2 = none ∧ inpEsc.esc = true :=
  ⟨rfl, rfl⟩

/-- C4 as amended: in the five demos that read Escape (basic-input,
polygon-making, shapes-gg, connect-lines, starfield) Update returns the
ErrCleanExit sentinel exactly on frames where Escape is pressed and nil
otherwise, while the turns demo's Update always returns nil. -/
theorem update_clean_exit_sentinel (inp : Input) (gB : BasicInput.Game)
    (gP : PolygonMaking.Game) (gS : ShapesGg.Game) (gC : ConnectLines.Game)
    (gF : Starfield.Game) (t : Int) :
    (BasicInput.update inp gB).2 = (if inp.esc then some Err.CleanExit else none) ∧
    (PolygonMaking.update inp gP).2 = (if inp.esc then some Err.CleanExit else none) ∧
    (ShapesGg.update inp gS).2 = (if inp.esc then some Err.CleanExit else none) ∧
    (ConnectLines.update inp gC).2 = (if inp.esc then some Err.CleanExit else none) ∧
    (Starfield.update inp gF).2 = (if inp.esc then some Err.CleanExit else none) ∧
    (Turns.update inp t).2 = none :=
  ⟨rfl, rfl, rfl, rfl, rfl, rfl⟩

/-! Claim C1: positions after a move. -/

/-- C1 counterexample: starfield's Star.MoveBy wraps instead of clamping. A
star at x = 639 moved by +2 lands at x = 0, not at the nearest in-bounds
value 640 that clamping to the screen range would give. -/
theorem star_wrap_not_clamp :
    (starEx.MoveBy 2 0).x = 0 ∧
    clampI 0 screenWidth (starEx.x + 2) = 640 ∧
    (starEx.MoveBy 2 0).x ≠ clampI 0 screenWidth (starEx.x + 2) := by
  decide

/-- C1 as amended: after any single move each entity's position stays within
the 640x480 screen range. The sprite, polygon, shape and block movers clamp:
the moved coordinate equals the nearest value in the entity's allowed range
(given that the entity fits on screen), and in particular lies in 0..640 and
0..480. Starfield's Star.MoveBy instead wraps around the screen edges,
keeping both coordinates within 0..640 and 0..480 unconditionally. -/
theorem move_position_within_screen
    (s : BasicInput.Sprite) (p : PolygonMaking.Polygon) (sh : ShapesGg.Shape)
    (b : ConnectLines.Block) (st : Starfield.Star) (dx dy : Int)
    (hsw0 : 0 ≤ s.img.w) (hsw : s.img.w ≤ screenWidth)
    (hsh0 : 0 ≤ s.img.h) (hsh : s.img.h ≤ screenHeight)
    (hpr0 : 0 ≤ p.radius) (hpr : 2 * p.radius ≤ screenHeight)
    (hshw0 : 0 ≤ sh.img.w) (hshw : 2 * sh.img.w ≤ screenWidth)
    (hshh0 : 0 ≤ sh.img.h) (hshh : 2 * sh.img.h ≤ screenHeight)
    (hbs0 : 0 ≤ b.size) :
    ((s.MoveBy dx dy).x = clampI 0 (screenWidth - s.img.w) (s.x + dx) ∧
     (s.MoveBy dx dy).y = clampI 0 (screenHeight - s.img.h) (s.y + dy) ∧
     0 ≤ (s.MoveBy dx dy).x ∧ (s.MoveBy dx dy).x ≤ screenWidth ∧
     0 ≤ (s.MoveBy dx dy).y ∧ (s.MoveBy dx dy).y ≤ screenHeight) ∧
    ((p.MoveBy dx dy).x = clampI p.radius (screenWidth - p.radius) (p.x + dx) ∧
     (p.MoveBy dx dy).y = clampI p.radius (screenHeight - p.radius) (p.y + dy) ∧
     0 ≤ (p.MoveBy dx dy).x ∧ (p.MoveBy dx dy).x ≤ screenWidth ∧
     0 ≤ (p.MoveBy dx dy).y ∧ (p.MoveBy dx dy).y ≤ screenHeight) ∧
    ((sh.MoveBy dx dy).x = clampI sh.img.w (screenWidth - sh.img.w) (sh.x + dx) ∧
     (sh.MoveBy dx dy).y = clampI sh.img.h (screenHeight - sh.img.h) (sh.y + dy) ∧
     0 ≤ (sh.MoveBy dx dy).x ∧ (sh.MoveBy dx dy).x ≤ screenWidth ∧
     0 ≤ (sh.MoveBy dx dy).y ∧ (sh.MoveBy dx dy).y ≤ screenHeight) ∧
    ((b.Move dx dy).x = clampI 0 (screenWidth - b.size) (b.x + dx) ∧
     (b.Move dx dy).y = clampI 0 (screenHeight - b.size) (b.y + dy) ∧
     0 ≤ (b.Move dx dy).x ∧ (b.Move dx dy).x ≤ screenWidth ∧
     0 ≤ (b.Move dx dy).y ∧ (b.Move dx dy).y ≤ screenHeight) ∧
    (0 ≤ (st.MoveBy dx dy).x ∧ (st.MoveBy dx dy).x ≤ screenWidth ∧
     0 ≤ (st.MoveBy dx dy).y ∧ (st.MoveBy dx dy).y ≤ screenHeight) := by
  simp only [screenWidth, screenHeight] at *
  and_intros <;>
    simp only [BasicInput.Sprite.MoveBy, PolygonMaking.Polygon.MoveBy,
      ShapesGg.Shape.MoveBy, ConnectLines.Block.Move, Starfield.Star.MoveBy,
      clampI, Int.min_def, Int.max_def, screenWidth, screenHeight] <;>
    split_ifs <;> omega

/-- Witness for C1 at concrete entities that fit the screen, with a large
delta on each axis. -/
theorem move_position_within_screen_witness :
    ((sprEx.MoveBy 1000 (-1000)).x = clampI 0 (screenWidth - sprEx.img.w) (sprEx.x + 1000) ∧
     (sprEx.MoveBy 1000 (-1000)).y = clampI 0 (screenHeight - sprEx.img.h) (sprEx.y + (-1000)) ∧
     0 ≤ (sprEx.MoveBy 1000 (-1000)).x ∧ (sprEx.MoveBy 1000 (-1000)).x ≤ screenWidth ∧
     0 ≤ (sprEx.MoveBy 1000 (-1000)).y ∧ (sprEx.MoveBy 1000 (-1000)).y ≤ screenHeight) ∧
    ((polEx.MoveBy 1000 (-1000)).x = clampI polEx.radius (screenWidth - polEx.radius) (polEx.x + 1000) ∧
     (polEx.MoveBy 1000 (-1000)).y = clampI polEx.radius (screenHeight - polEx.radius) (polEx.y + (-1000)) ∧
     0 ≤ (polEx.MoveBy 1000 (-1000)).x ∧ (polEx.MoveBy 1000 (-1000)).x ≤ screenWidth ∧
     0 ≤ (polEx.MoveBy 1000 (-1000)).y ∧ (polEx.MoveBy 1000 (-1000)).y ≤ screenHeight) ∧
    ((shpEx.MoveBy 1000 (-1000)).x = clampI shpEx.img.w (screenWidth - shpEx.img.w) (shpEx.x + 1000) ∧
     (shpEx.MoveBy 1000 (-1000)).y = clampI shpEx.img.h (screenHeight - shpEx.img.h) (shpEx.y + (-1000)) ∧
     0 ≤ (shpEx.MoveBy 1000 (-1000)).x ∧ (shpEx.MoveBy 1000 (-1000)).x ≤ screenWidth ∧
     0 ≤ (shpEx.MoveBy 1000 (-1000)).y ∧ (shpEx.MoveBy 1000 (-1000)).y ≤ screenHeight) ∧
    ((blkEx.Move 1000 (-1000)).x = clampI 0 (screenWidth - blkEx.size) (blkEx.x + 1000) ∧
     (blkEx.Move 1000 (-1000)).y = clampI 0 (screenHeight - blkEx.size) (blkEx.y + (-1000)) ∧
     0 ≤ (blkEx.Move 1000 (-1000)).x ∧ (blkEx.Move 1000 (-1000)).x ≤ screenWidth ∧
     0 ≤ (blkEx.Move 1000 (-1000)).y ∧ (blkEx.Move 1000 (-1000)).y ≤ screenHeight) ∧
    (0 ≤ (starEx.MoveBy 1000 (-1000)).x ∧ (starEx.MoveBy 1000 (-1000)).x ≤ screenWidth ∧
     0 ≤ (starEx.MoveBy 1000 (-1000)).y ∧ (starEx.MoveBy 1000 (-1000)).y ≤ screenHeight) :=
  move_position_within_screen sprEx polEx shpEx blkEx starEx 1000 (-1000)
    (by decide) (by decide) (by decide) (by decide) (by decide) (by decide)
    (by decide) (by decide) (by decide) (by decide) (by decide)

/-! Claim C5: which entities a single Update mutates. -/

/-- C5 counterexample: in the starfield demo a single Update with the up key
pressed moves every star, not just one active entity: both stars of a
two-star layer change their y coordinate in the same call. -/
theorem starfield_moves_many :
    ((Starfield.update inpUp gStarEx).1.nearStars[0]?).map Starfield.Star.y ≠
      (gStarEx.nearStars[0]?).map Starfield.Star.y ∧
    ((Starfield.update inpUp gStarEx).1.nearStars[1]?).map Starfield.Star.y ≠
      (gStarEx.nearStars[1]?).map Starfield.Star.y := by
  decide

/-- C5 as amended: in the four demos with an active/selected entity
(basic-input, polygon-making, shapes-gg, connect-lines) an Update call leaves
every entity other than the one active at entry untouched; in starfield,
MoveView moves every star of both layers uniformly. -/
theorem update_mutates_active_only (inp : Input) (gB : BasicInput.Game)
    (gP : PolygonMaking.Game) (gS : ShapesGg.Game) (gC : ConnectLines.Game)
    (gF : Starfield.Game) (x y : Int) (j : Nat) :
    (j ≠ gB.activeSprite → (BasicInput.update inp gB).1.s[j]? = gB.s[j]?) ∧
    (j ≠ gP.activePolygon → (PolygonMaking.update inp gP).1.p[j]? = gP.p[j]?) ∧
    (j ≠ gS.activeShape → (ShapesGg.update inp gS).1.s[j]? = gS.s[j]?) ∧
    (j ≠ gC.selected → (ConnectLines.update inp gC).1.blocks[j]? = gC.blocks[j]?) ∧
    ((Starfield.MoveView gF x y).nearStars[j]? =
       (gF.nearStars[j]?).map
         (fun st => st.MoveBy (x * Starfield.translateNear) (y * Starfield.translateNear)) ∧
     (Starfield.MoveView gF x y).farStars[j]? =
       (gF.farStars[j]?).map
         (fun st => st.MoveBy (x * Starfield.translateFar) (y * Starfield.translateFar))) := by
  refine ⟨?_, ?_, ?_, ?_, ?_, ?_⟩
  · intro h; exact modifyAt_getElem?_ne _ _ _ _ h
  · intro h; exact modifyAt_getElem?_ne _ _ _ _ h
  · intro h; exact modifyAt_getElem?_ne _ _ _ _ h
  · intro h; exact modifyAt_getElem?_ne _ _ _ _ h
  · simp [Starfield.MoveView]
  · simp [Starfield.MoveView]

/-- Witness for C5: with an idle frame, entity 1 of each demo (active index 0)
is untouched by Update. -/
theorem update_mutates_active_only_witness :
    (BasicInput.update inp0 gBasicEx).1.s[1]? = gBasicEx.s[1]? ∧
    (PolygonMaking.update inp0 gPolyEx).1.p[1]? = gPolyEx.p[1]? ∧
    (ShapesGg.update inp0 gShapeEx).1.s[1]? = gShapeEx.s[1]? ∧
    (ConnectLines.update inp0 gConnEx).1.blocks[1]? = gConnEx.blocks[1]? :=
  ⟨(update_mutates_active_only inp0 gBasicEx gPolyEx gShapeEx gConnEx gStarEx 0 0 1).1 (by decide),
   (update_mutates_active_only inp0 gBasicEx gPolyEx gShapeEx gConnEx gStarEx 0 0 1).2.1 (by decide),
   (update_mutates_active_only inp0 gBasicEx gPolyEx gShapeEx gConnEx gStarEx 0 0 1).2.2.1 (by decide),
   (update_mutates_active_only inp0 gBasicEx gPolyEx gShapeEx gConnEx gStarEx 0 0 1).2.2.2.1 (by decide)⟩

/-! Claim C7: the entity population is fixed. -/

/-- C7: no Update call changes the number of entities: the sprite, polygon,
shape and block lists and both star layers keep their length across every
Update (connect-lines grows its connection list, but connections are not
entities). -/
theorem update_preserves_entity_count (inp : Input) (gB : BasicInput.Game)
    (gP : PolygonMaking.Game) (gS : ShapesGg.Game) (gC : ConnectLines.Game)
    (gF : Starfield.Game) :
    (BasicInput.update inp gB).1.s.length = gB.s.length ∧
    (PolygonMaking.update inp gP).1.p.length = gP.p.length ∧
    (ShapesGg.update inp gS).1.s.length = gS.s.length ∧
    (ConnectLines.update inp gC).1.blocks.length = gC.blocks.length ∧
    (Starfield.update inp gF).1.nearStars.length = gF.nearStars.length ∧
    (Starfield.update inp gF).1.farStars.length = gF.farStars.length := by
  refine ⟨modifyAt_length _ _ _, modifyAt_length _ _ _, modifyAt_length _ _ _,
    modifyAt_length _ _ _, ?_, ?_⟩ <;>
    · simp only [Starfield.update, Starfield.MoveView]
      split_ifs <;> simp

/-! Claim C8: left-click selection picks the topmost hit. -/

/-- C8: the descending hit-scan of the mouse handlers keeps the current index
when no entity contains the cursor, returns the largest index whose entity
contains the cursor when one exists, and basic-input's Update assigns exactly
this scan result to the active index on a left click. -/
theorem click_selects_topmost {α : Type} (l : List α) (p : α → Bool)
    (cur i : Nat) (inp : Input) (g : BasicInput.Game) :
    ((∀ j : Nat, Option.any p l[j]? = false) → selectTop l p cur = cur) ∧
    (Option.any p l[i]? = true →
      (∀ j : Nat, i < j → Option.any p l[j]? = false) →
      selectTop l p cur = i) ∧
    (inp.leftJust = true →
      (BasicInput.update inp g).1.activeSprite =
        selectTop (modifyAt g.activeSprite (BasicInput.movePhase inp) g.s)
          (fun sp => BasicInput.Sprite.In sp inp.cx inp.cy) g.activeSprite) := by
  refine ⟨?_, ?_, ?_⟩
  · intro h
    unfold selectTop findTopHit
    rw [findTopFrom_none l p h]
    rfl
  · intro hi hj
    have hilen : i < l.length := by
      by_contra hge
      rw [List.getElem?_eq_none (by omega)] at hi
      simp at hi
    unfold selectTop findTopHit
    rw [findTopFrom_eq_top l p i hi hj l.length hilen]
    rfl
  · intro h
    simp [BasicInput.update, h]

/-- Witness for C8: an all-miss scan keeps the current index 1; on the list
of values 1, 2, 3 with hit test v smaller than 3, index 1 is the topmost hit;
and a concrete left click in basic-input stores the scan result. -/
theorem click_selects_topmost_witness :
    selectTop [(5 : Int), 7] (fun v => decide (v < 0)) 1 = 1 ∧
    selectTop [(1 : Int), 2, 3] (fun v => decide (v < 3)) 0 = 1 ∧
    (BasicInput.update inpClick gBasicEx).1.activeSprite =
      selectTop (modifyAt gBasicEx.activeSprite (BasicInput.movePhase inpClick) gBasicEx.s)
        (fun sp => BasicInput.Sprite.In sp inpClick.cx inpClick.cy) gBasicEx.activeSprite :=
  ⟨(click_selects_topmost [(5 : Int), 7] (fun v => decide (v < 0)) 1 0 inp0 gBasicEx).1
      (by
        intro j
        match j with
        | 0 => rfl
        | 1 => rfl
        | n + 2 => rfl),
   (click_selects_topmost [(1 : Int), 2, 3] (fun v => decide (v < 3)) 0 1 inp0 gBasicEx).2.1
      (by decide)
      (by
        intro j hj
        match j, hj with
        | 2, _ => rfl
        | n + 3, _ => rfl),
   (click_selects_topmost [(5 : Int)] (fun v => decide (v < 0)) 0 0 inpClick gBasicEx).2.2 rfl⟩

/-! Claim C9: the active index stays in range. -/

/-- C9: in each demo with an active/selected entity, any Update keeps an
in-range index in range: space cycles modulo the list length, a click stores
either a valid hit index or the unchanged current one, and the entity count
is unchanged. -/
theorem active_index_in_range (inp : Input) (gB : BasicInput.Game)
    (gP : PolygonMaking.Game) (gS : ShapesGg.Game) (gC : ConnectLines.Game) :
    (gB.activeSprite < gB.s.length →
      (BasicInput.update inp gB).1.activeSprite < (BasicInput.update inp gB).1.s.length) ∧
    (gP.activePolygon < gP.p.length →
      (PolygonMaking.update inp gP).1.activePolygon < (PolygonMaking.update inp gP).1.p.length) ∧
    (gS.activeShape < gS.s.length →
      (ShapesGg.update inp gS).1.activeShape < (ShapesGg.update inp gS).1.s.length) ∧
    (gC.selected < gC.blocks.length →
      (ConnectLines.update inp gC).1.selected < (ConnectLines.update inp gC).1.blocks.length) := by
  refine ⟨?_, ?_, ?_, ?_⟩
  · intro h
    have hlen := modifyAt_length gB.activeSprite (BasicInput.movePhase inp) gB.s
    dsimp only [BasicInput.update]
    by_cases hc : inp.leftJust
    · simp only [hc, if_true]
      exact selectTop_lt _ _ _ (by rw [hlen]; exact h)
    · simp only [hc, if_false]
      rw [hlen]; exact h
  · intro h
    have hlen := modifyAt_length gP.activePolygon (PolygonMaking.movePhase inp) gP.p
    have hpos : 0 < gP.p.length := by omega
    have ha1 :
        (if inp.spaceJust then (gP.activePolygon + 1) % gP.p.length
         else gP.activePolygon) < gP.p.length := by
      split
      · exact Nat.mod_lt _ hpos
      · exact h
    dsimp only [PolygonMaking.update]
    by_cases hc : inp.leftJust
    · simp only [hc, if_true]
      exact selectTop_lt _ _ _ (by rw [hlen]; exact ha1)
    · simp only [hc, if_false]
      rw [hlen]; exact ha1
  · intro h
    have hlen := modifyAt_length gS.activeShape (ShapesGg.movePhase inp) gS.s
    have hpos : 0 < gS.s.length := by omega
    have ha1 :
        (if inp.spaceJust then (gS.activeShape + 1) % gS.s.length
         else gS.activeShape) < gS.s.length := by
      split
      · exact Nat.mod_lt _ hpos
      · exact h
    dsimp only [ShapesGg.update]
    by_cases hc : inp.leftJust
    · simp only [hc, if_true]
      exact selectTop_lt _ _ _ (by rw [hlen]; exact ha1)
    · simp only [hc, if_false]
      rw [hlen]; exact ha1
  · intro h
    have hlen := modifyAt_length gC.selected (ConnectLines.movePhase inp) gC.blocks
    dsimp only [ConnectLines.update]
    by_cases hc : inp.leftJust
    · simp only [hc, if_true]
      exact selectTop_lt _ _ _ (by rw [hlen]; exact h)
    · simp only [hc, if_false]
      rw [hlen]; exact h

/-- Witness for C9: with concrete two-entity games and the idle frame, the
active index stays in range. -/
theorem active_index_in_range_witness :
    (BasicInput.update inp0 gBasicEx).1.activeSprite < (BasicInput.update inp0 gBasicEx).1.s.length ∧
    (PolygonMaking.update inp0 gPolyEx).1.activePolygon < (PolygonMaking.update inp0 gPolyEx).1.p.length ∧
    (ShapesGg.update inp0 gShapeEx).1.activeShape < (ShapesGg.update inp0 gShapeEx).1.s.length ∧
    (ConnectLines.update inp0 gConnEx).1.selected < (ConnectLines.update inp0 gConnEx).1.blocks.length :=
  ⟨(active_index_in_range inp0 gBasicEx gPolyEx gShapeEx gConnEx).1 (by decide),
   (active_index_in_range inp0 gBasicEx gPolyEx gShapeEx gConnEx).2.1 (by decide),
   (active_index_in_range inp0 gBasicEx gPolyEx gShapeEx gConnEx).2.2.1 (by decide),
   (active_index_in_range inp0 gBasicEx gPolyEx gShapeEx gConnEx).2.2.2 (by decide)⟩

/-! Claim C10: connections join distinct valid blocks. -/

/-- C10: connect-lines' Update preserves the invariant that the selected
index is in range and every connection joins two distinct in-range block
indices; a right click appends a connection only when the hit block differs
from the selected one, with both endpoints valid. Together with the initial
state (empty connection list, selected 0) this gives the claim for every
reachable connection. -/
theorem connections_distinct_valid (inp : Input) (g : ConnectLines.Game)
    (hsel : g.selected < g.blocks.length) (hok : ConnectLines.ConnOK g) :
    (ConnectLines.update inp g).1.selected < (ConnectLines.update inp g).1.blocks.length ∧
    ConnectLines.ConnOK (ConnectLines.update inp g).1 := by
  have hlen := modifyAt_length g.selected (ConnectLines.movePhase inp) g.blocks
  have hsel1 :
      (if inp.leftJust then
        selectTop (modifyAt g.selected (ConnectLines.movePhase inp) g.blocks)
          (fun b => ConnectLines.Block.In b inp.cx inp.cy) g.selected
       else g.selected) < g.blocks.length := by
    split
    · have := selectTop_lt (modifyAt g.selected (ConnectLines.movePhase inp) g.blocks)
        (fun b => ConnectLines.Block.In b inp.cx inp.cy) g.selected (by rw [hlen]; exact hsel)
      rw [hlen] at this
      exact this
    · exact hsel
  constructor
  · dsimp only [ConnectLines.update]
    rw [hlen]
    exact hsel1
  · dsimp only [ConnectLines.update, ConnectLines.ConnOK]
    intro c hc
    rw [hlen]
    by_cases hr : inp.rightJust
    · simp only [hr, if_true] at hc
      cases htop : findTopHit (modifyAt g.selected (ConnectLines.movePhase inp) g.blocks)
        (fun b => ConnectLines.Block.In b inp.cx inp.cy) with
      | none =>
        rw [htop] at hc
        exact hok c hc
      | some i =>
        have hi : i < g.blocks.length := by
          have := findTopFrom_some_lt
            (modifyAt g.selected (ConnectLines.movePhase inp) g.blocks)
            (fun b => ConnectLines.Block.In b inp.cx inp.cy)
            (modifyAt g.selected (ConnectLines.movePhase inp) g.blocks).length i
            (by rw [findTopHit] at htop; exact htop)
          omega
        rw [htop] at hc
        dsimp only at hc
        by_cases hne :
            i ≠ (if inp.leftJust then
              selectTop (modifyAt g.selected (ConnectLines.movePhase inp) g.blocks)
                (fun b => ConnectLines.Block.In b inp.cx inp.cy) g.selected
             else g.selected)
        · rw [if_pos hne] at hc
          rcases List.mem_append.mp hc with hcl | hcr
          · exact hok c hcl
          · have hceq := List.mem_singleton.mp hcr
            subst hceq
            exact ⟨Ne.symm hne, hsel1, hi⟩
        · rw [if_neg hne] at hc
          exact hok c hc
    · simp only [hr, if_false] at hc
      exact hok c hc

/-- Witness for C10: a concrete two-block game with no connections and a
right click keeps the invariant. -/
theorem connections_distinct_valid_witness :
    (ConnectLines.update inpRight gConnEx).1.selected <
      (ConnectLines.update inpRight gConnEx).1.blocks.length ∧
    ConnectLines.ConnOK (ConnectLines.update inpRight gConnEx).1 :=
  connections_distinct_valid inpRight gConnEx (by decide)
    (by intro c hc; cases hc)

/-! Claim C6: genPolygon's vertex and index structure. -/

/-- C6 counterexample: the fan indices are built through uint16 conversions,
so genPolygon is not correct for every N with 3 <= N: at N = 65536 the loop
computes uint16(i+1) % uint16(num) with uint16(num) = 0, a Go run-time panic
(modelled as none), instead of returning the claimed N+1 vertices and 3N
indices. -/
theorem genPolygon_u16_overflow :
    PolygonMaking.genPolygon 5 65536 = none ∧ 3 ≤ 65536 :=
  ⟨rfl, by omega⟩

/-- C6 as amended: for 0 < r and 3 <= N <= 65535 (so that the uint16
conversions are lossless), genPolygon returns N+1 vertices, vertex i placed
at angle 2*pi*i/N on the circle of radius r centered at (r, r), the final
vertex at the center, together with exactly 3N fan indices whose i-th triple
is (i, (i+1) mod N, N), every triangle including the center vertex N. -/
theorem genPolygon_fan_structure (radius : Int) (num i : Nat)
    (_hr : 0 < radius) (h3 : 3 ≤ num) (hmax : num ≤ 65535) (hi : i < num) :
    PolygonMaking.genPolygon radius num =
      some (PolygonMaking.genPolygonVs radius num, PolygonMaking.genPolygonIs num) ∧
    (PolygonMaking.genPolygonVs radius num).length = num + 1 ∧
    ((PolygonMaking.genPolygonVs radius num)[i]?).map PolygonMaking.VertexR.dstX =
      some ((radius : ℝ) * Real.cos (2 * Real.pi * ((i : ℝ) / (num : ℝ))) + (radius : ℝ)) ∧
    ((PolygonMaking.genPolygonVs radius num)[i]?).map PolygonMaking.VertexR.dstY =
      some ((radius : ℝ) * Real.sin (2 * Real.pi * ((i : ℝ) / (num : ℝ))) + (radius : ℝ)) ∧
    ((PolygonMaking.genPolygonVs radius num)[num]?).map PolygonMaking.VertexR.dstX =
      some ((radius : Int) : ℝ) ∧
    ((PolygonMaking.genPolygonVs radius num)[num]?).map PolygonMaking.VertexR.dstY =
      some ((radius : Int) : ℝ) ∧
    PolygonMaking.genPolygonIs num =
      (List.range num).flatMap (fun k => [k, (k + 1) % num, num]) ∧
    (PolygonMaking.genPolygonIs num).length = 3 * num := by
  have hu : PolygonMaking.u16 num = num := Nat.mod_eq_of_lt (by omega)
  refine ⟨?_, ?_, ?_, ?_, ?_, ?_, ?_, ?_⟩
  · simp only [PolygonMaking.genPolygon]
    rw [if_neg]
    rintro ⟨_, h0⟩
    rw [hu] at h0
    omega
  · simp [PolygonMaking.genPolygonVs]
  · simp only [PolygonMaking.genPolygonVs]
    rw [List.getElem?_append]
    simp [List.getElem?_range, hi, PolygonMaking.polyVertex]
  · simp only [PolygonMaking.genPolygonVs]
    rw [List.getElem?_append]
    simp [List.getElem?_range, hi, PolygonMaking.polyVertex]
  · simp only [PolygonMaking.genPolygonVs]
    rw [List.getElem?_append_right (by simp)]
    simp
  · simp only [PolygonMaking.genPolygonVs]
    rw [List.getElem?_append_right (by simp)]
    simp
  · simp only [PolygonMaking.genPolygonIs]
    apply flatMap_congr_mem
    intro k hk
    have hk2 : k < num := List.mem_range.mp hk
    have huk : PolygonMaking.u16 k = k := Nat.mod_eq_of_lt (by omega)
    have huk1 : PolygonMaking.u16 (k + 1) = k + 1 := Nat.mod_eq_of_lt (by omega)
    rw [huk, huk1, hu]
  · have h := flatMap_triple_length (List.range num) (fun k => PolygonMaking.u16 k)
      (fun k => PolygonMaking.u16 (k + 1) % PolygonMaking.u16 num)
      (fun _ => PolygonMaking.u16 num)
    simpa [PolygonMaking.genPolygonIs] using h

/-- Witness for C6 at a concrete pentagon: radius 20, N = 5, vertex 2. -/
theorem genPolygon_fan_structure_witness :
    PolygonMaking.genPolygon 20 5 =
      some (PolygonMaking.genPolygonVs 20 5, PolygonMaking.genPolygonIs 5) ∧
    (PolygonMaking.genPolygonVs 20 5).length = 5 + 1 ∧
    PolygonMaking.genPolygonIs 5 =
      (List.range 5).flatMap (fun k => [k, (k + 1) % 5, 5]) ∧
    (PolygonMaking.genPolygonIs 5).length = 3 * 5 :=
  ⟨(genPolygon_fan_structure 20 5 2 (by decide) (by decide) (by decide) (by decide)).1,
   (genPolygon_fan_structure 20 5 2 (by decide) (by decide) (by decide) (by decide)).2.1,
   (genPolygon_fan_structure 20 5 2 (by decide) (by decide) (by decide) (by decide)).2.2.2.2.2.2.1,
   (genPolygon_fan_structure 20 5 2 (by decide) (by decide) (by decide) (by decide)).2.2.2.2.2.2.2⟩
